import Mathlib

/-!
Verification of the resource-and-synchronization core of the lr-rs GPU
renderer, shallowly embedded from the Rust source.

The embedding mirrors `src/graphics/gpu_resource.rs` (the paged
`ResourcePool` handle table), `src/graphics/command.rs` (`CommandType`,
`Semaphore`, `CommandQueue`), `src/graphics/physical_device.rs` (queue
family selection), and `src/graphics/device.rs` (`Device::new` queue and
bindless-descriptor setup, `new_frame`, `end_frame`, `acquire_next_image`,
`present`).  Machine integers are `Nat` with explicit `% 2 ^ w` reductions
where the Rust `u32`/`u64` wrap-around matters, and the `u64 -> i64` cast in
`Device::new_frame` is modelled exactly.
-/

namespace LrRs

/-! ## Resource pool (gpu_resource.rs) -/

/-- Mirrors `const MAX_RESOURCE_COUNT: u32 = 1 << 19`. -/
def MAX_RESOURCE_COUNT : Nat := 2 ^ 19

/-- Mirrors `const PAGE_BITS: u32 = 9`. -/
def PAGE_BITS : Nat := 9

/-- Mirrors `const PAGE_SIZE: u32 = 1 << PAGE_BITS`. -/
def PAGE_SIZE : Nat := 2 ^ PAGE_BITS

/-- Mirrors `const PAGE_MASK: u32 = PAGE_SIZE - 1`. -/
def PAGE_MASK : Nat := PAGE_SIZE - 1

/-- Mirrors `const PAGE_COUNT: u32 = MAX_RESOURCE_COUNT / PAGE_SIZE`. -/
def PAGE_COUNT : Nat := MAX_RESOURCE_COUNT / PAGE_SIZE

/-- A page `[MaybeUninit<T>; PAGE_SIZE]`: a slot holds `none` while the
`MaybeUninit` cell is still uninitialised, `some r` once `create` wrote the
record `r` into it.  Offsets outside `0 .. PAGE_SIZE - 1` are never
accessed by the code. -/
def Page (R : Type) : Type := Nat → Option R

/-- Mirrors `struct ResourcePool<ResourceT, ResourceID>`: the page table
`pages: [Option<Box<Page<T>>>; PAGE_COUNT]` (an unmaterialised page is
`none`), the free list `free_indices: Vec<u32>` (the vector's last element
is the top of the stack), and the high-water mark `latest_index: u32`. -/
structure ResourcePool (R : Type) where
  pages : Nat → Option (Page R)
  free_indices : List Nat
  latest_index : Nat

/-- Mirrors `ResourcePool::new`: zero high-water mark, empty free list, no
page materialised. -/
def ResourcePool.new (R : Type) : ResourcePool R :=
  { latest_index := 0, free_indices := [], pages := fun _ => none }

/-- The page to write into: the already materialised page, or (mirroring
`self.pages[page_id] = Some(Box::new([MaybeUninit::uninit(); PAGE_SIZE]))`)
a fresh all-uninitialised page. -/
def pageOrUninit {R : Type} : Option (Page R) → Page R
  | none => fun _ => none
  | some pg => pg

/-- The common tail of `ResourcePool::create` once the slot index has been
chosen: compute `page_id = index >> PAGE_BITS` and
`page_offset = index & PAGE_MASK`, fail if `page_id >= PAGE_COUNT`,
otherwise materialise the page if needed, write the constructed resource
into the slot and return `Some((resource, index))`. -/
def ResourcePool.createAt {R : Type} (p : ResourcePool R) (index : Nat) (value : R) :
    Option (R × Nat) × ResourcePool R :=
  let page_id := index >>> PAGE_BITS
  let page_offset := index &&& PAGE_MASK
  if PAGE_COUNT ≤ page_id then
    (none, p)
  else
    let page0 := pageOrUninit (p.pages page_id)
    let page1 : Page R := fun o => if o = page_offset then some value else page0 o
    (some (value, index),
      { p with pages := fun i => if i = page_id then some page1 else p.pages i })

/-- Mirrors `ResourcePool::create(&mut self, args)`.  If the free list is
empty the high-water mark is incremented first (`self.latest_index += 1`,
a `u32` increment, hence the `% 2 ^ 32`) and the new mark is the candidate
index, rejected if it reaches `MAX_RESOURCE_COUNT`; otherwise the candidate
is the last element of the free list (`free_indices.last()`), which is
popped.  The chosen index then goes through the common page tail. -/
def ResourcePool.create {R : Type} (p : ResourcePool R) (args : Unit → R) :
    Option (R × Nat) × ResourcePool R :=
  if p.free_indices.isEmpty then
    let latest := (p.latest_index + 1) % 2 ^ 32
    if MAX_RESOURCE_COUNT ≤ latest then
      (none, { p with latest_index := latest })
    else
      ResourcePool.createAt { p with latest_index := latest } latest (args ())
  else
    let index := p.free_indices.getLast?.getD 0
    ResourcePool.createAt { p with free_indices := p.free_indices.dropLast } index (args ())

/-- The slot index `ResourcePool::create` chooses for the next allocation:
the (wrapped) incremented high-water mark when the free list is empty, the
top of the free-list stack otherwise. -/
def ResourcePool.chosenIndex {R : Type} (p : ResourcePool R) : Nat :=
  if p.free_indices.isEmpty then (p.latest_index + 1) % 2 ^ 32
  else p.free_indices.getLast?.getD 0

/-- The trivial resource constructor used to drive the pool in concrete
runs (the `args: impl FnOnce() -> ResourceT` argument). -/
def v0 : Unit → Nat := fun _ => 0

/-- The pool obtained from a fresh pool by `n` successive `create` calls,
keeping only the pool state. -/
def createN {R : Type} (v : Unit → R) : Nat → ResourcePool R
  | 0 => ResourcePool.new R
  | n + 1 => ((createN v n).create v).2

example : ((ResourcePool.new Nat).create v0).1 = some (0, 1) := by rfl
example : ((createN v0 1).create v0).1 = some (0, 2) := by rfl
example : ((createN v0 2).create v0).2.latest_index = 3 := by rfl

/-! ## Command types and semaphores (command.rs) -/

/-- Mirrors `enum CommandType { Graphics = 0, Transfer = 1, Compute = 2 }`
(note the source order: Transfer is 1, Compute is 2). -/
inductive CommandType where
  | Graphics
  | Transfer
  | Compute
deriving DecidableEq

/-- The `repr(usize)` discriminant of a `CommandType`, used by
`queue_type_indices[CommandType::... as usize]` and `Device::queue_at`. -/
def CommandType.toIdx : CommandType → Fin 3
  | .Graphics => 0
  | .Transfer => 1
  | .Compute => 2

/-- Mirrors `struct Semaphore { counter: u64, handle: vk::Semaphore }`; the
native handle is kept as an opaque numeric identifier. -/
structure Semaphore where
  counter : Nat
  handle : Nat
deriving DecidableEq

/-- Mirrors `Semaphore::advance`: `self.counter += 1` on a `u64`. -/
def Semaphore.advance (s : Semaphore) : Semaphore :=
  { s with counter := (s.counter + 1) % 2 ^ 64 }

/-- A native `vk::Queue` handle, remembered together with the arguments of
the `get_device_queue(family_index, queue_index)` call that produced it. -/
structure NativeQueue where
  family_index : Nat
  queue_index : Nat
deriving DecidableEq

/-- Mirrors `vkGetDeviceQueue`: the returned handle records which family
(and queue index within it) it was obtained from. -/
def get_device_queue (family_index queue_index : Nat) : NativeQueue :=
  { family_index := family_index, queue_index := queue_index }

/-- Mirrors `struct CommandQueue { family_index: u32, semaphore: Semaphore,
handle: vk::Queue }`. -/
structure CommandQueue where
  family_index : Nat
  semaphore : Semaphore
  handle : NativeQueue
deriving DecidableEq

/-! ## Queue family selection (physical_device.rs) -/

/-- Bit value of `vk::QueueFlags::GRAPHICS`. -/
def GRAPHICS_BIT : Nat := 1

/-- Bit value of `vk::QueueFlags::COMPUTE`. -/
def COMPUTE_BIT : Nat := 2

/-- Bit value of `vk::QueueFlags::TRANSFER`. -/
def TRANSFER_BIT : Nat := 4

/-- Mirrors `get_first_queue_index`: scan the `(index, properties)` pairs in
order and return the first family whose flags contain all desired flags. -/
def get_first_queue_index : List (Nat × Nat) → Nat → Option Nat
  | [], _ => none
  | (i, flags) :: rest, desired =>
    if flags &&& desired = desired then some i
    else get_first_queue_index rest desired

/-- The scanning loop of `get_separate_queue_index`, with the running
`index: Option<usize>` fallback accumulator made explicit. -/
def get_separate_queue_go : List (Nat × Nat) → Nat → Nat → Option Nat → Option Nat
  | [], _, _, index => index
  | (i, flags) :: rest, desired, undesired, index =>
    if flags &&& desired = desired ∧ flags &&& GRAPHICS_BIT = 0 then
      if flags &&& undesired = 0 then some i
      else get_separate_queue_go rest desired undesired (some i)
    else get_separate_queue_go rest desired undesired index

/-- Mirrors `get_separate_queue_index`: return immediately the first family
that has the desired flags, lacks Graphics and lacks the undesired flags;
otherwise remember (and keep overwriting) any family that has the desired
flags and lacks Graphics, and return the last one remembered. -/
def get_separate_queue_index (props : List (Nat × Nat)) (desired undesired : Nat) : Option Nat :=
  get_separate_queue_go props desired undesired none

/-- A family that the `get_separate_queue_index` loop records as fallback:
it has all desired flags and no Graphics capability. -/
def isCandidate (desired : Nat) (p : Nat × Nat) : Bool :=
  decide (p.2 &&& desired = desired ∧ p.2 &&& GRAPHICS_BIT = 0)

/-- A family the loop returns immediately: a candidate that also lacks all
undesired flags (a fully dedicated family). -/
def isDedicated (desired undesired : Nat) (p : Nat × Nat) : Bool :=
  isCandidate desired p && decide (p.2 &&& undesired = 0)

/-- Mirrors the `queue_type_indices` assignment block of
`PhysicalDevice::new` (device creation fails when any selector returns
`None`, hence the `Option`): slot `CommandType::Graphics as usize = 0` gets
the first Graphics family, slot `CommandType::Compute as usize = 2` the
separate Compute family (undesired: Transfer), slot
`CommandType::Transfer as usize = 1` the separate Transfer family
(undesired: Compute). -/
def select_queue_type_indices (props : List (Nat × Nat)) : Option (Fin 3 → Nat) := do
  let g ← get_first_queue_index props GRAPHICS_BIT
  let c ← get_separate_queue_index props COMPUTE_BIT TRANSFER_BIT
  let t ← get_separate_queue_index props TRANSFER_BIT COMPUTE_BIT
  pure ![g, t, c]

/-! ## Device (device.rs) -/

/-- Mirrors the fields of `struct Device` relevant to this development; the
raw Vulkan handles of the bindless descriptor objects are opaque numeric
identifiers. -/
structure Device where
  queue_type_indices : Fin 3 → Nat
  queues : Fin 3 → CommandQueue
  frame_sema : Semaphore
  frame_count : Nat
  descriptor_pool : Nat
  descriptor_set_layout : Nat
  descriptor_set : Nat

/-- Mirrors the `native_queues` array of `Device::new`, built in the order
Graphics, Compute, Transfer — i.e. from the families
`queue_type_indices[CommandType::Graphics as usize]`,
`queue_type_indices[CommandType::Compute as usize]`,
`queue_type_indices[CommandType::Transfer as usize]`, each with queue
index 0. -/
def device_native_queues (qti : Fin 3 → Nat) : Fin 3 → NativeQueue :=
  ![get_device_queue (qti CommandType.Graphics.toIdx) 0,
    get_device_queue (qti CommandType.Compute.toIdx) 0,
    get_device_queue (qti CommandType.Transfer.toIdx) 0]

/-- Mirrors the `(0..3).for_each` loop of `Device::new`:
`queues[i] = CommandQueue { family_index: queue_type_indices[i],
semaphore: create_timeline_semaphore(), handle: native_queues[i] }`. -/
def device_setup_queues (qti : Fin 3 → Nat) (semas : Fin 3 → Semaphore) :
    Fin 3 → CommandQueue :=
  fun i =>
    { family_index := qti i
      semaphore := semas i
      handle := device_native_queues qti i }

/-- The state `Device::new(frame_count)` reaches after the queue-setup
phase, as a function of the externally supplied queue family selection
`qti` and the timeline semaphores created for the frame counter and the
three queues. -/
def Device.new_model (qti : Fin 3 → Nat) (frame_sema : Semaphore)
    (semas : Fin 3 → Semaphore) (frame_count : Nat) : Device :=
  { queue_type_indices := qti
    queues := device_setup_queues qti semas
    frame_sema := frame_sema
    frame_count := frame_count
    descriptor_pool := 0
    descriptor_set_layout := 0
    descriptor_set := 0 }

/-- Mirrors `Device::queue_at`: `&self.queues[command_type as usize]`. -/
def Device.queue_at (d : Device) (t : CommandType) : CommandQueue :=
  d.queues t.toIdx

/-- Mirrors `Device::end_frame`: `self.frame_sema.advance()`. -/
def Device.end_frame (d : Device) : Device :=
  { d with frame_sema := d.frame_sema.advance }

/-- The Rust cast `u64 as i64`: values below `2 ^ 63` are unchanged, the
rest are reinterpreted as negative. -/
def u64ToI64 (n : Nat) : Int :=
  if n < 2 ^ 63 then (n : Int) else (n : Int) - 2 ^ 64

/-- Mirrors `Device::new_frame`.  The first component is the value the
function passes to `wait_for_semaphore(&self.frame_sema, ...)` — computed
as `max(0, (counter as i64) - ((frame_count - 1) as i64)) as u64` — and the
second is the returned frame slot index
`(frame_sema.counter % frame_count as u64) as usize`. -/
def Device.new_frame (d : Device) : Nat × Nat :=
  let sema_counter : Int := u64ToI64 d.frame_sema.counter
  let wait_val : Nat := (max 0 (sema_counter - ((d.frame_count - 1 : Nat) : Int))).toNat
  (wait_val, d.frame_sema.counter % d.frame_count)

/-- `new_frame` blocks the calling thread exactly when the GPU has not yet
signalled the frame timeline up to the computed wait value
(`wait_for_semaphore` returns immediately once the semaphore payload is at
least the requested value). -/
def Device.new_frame_blocks (d : Device) (gpu_signaled : Nat) : Prop :=
  gpu_signaled < (d.new_frame).1

/-- A device with the given frame counter and frame-in-flight count and
inert queue/descriptor state, for concrete runs. -/
def mkSimpleDevice (counter frame_count : Nat) : Device :=
  Device.new_model (fun _ => 0) { counter := counter, handle := 0 }
    (fun _ => { counter := 0, handle := 0 }) frame_count

/-! ## Bindless descriptor set construction (Device::new) -/

/-- The `vk::DescriptorType` values used by the bindless set. -/
inductive DescriptorType where
  | SAMPLER
  | SAMPLED_IMAGE
  | STORAGE_IMAGE
  | STORAGE_BUFFER
deriving DecidableEq

/-- Mirrors `vk::DescriptorPoolSize` (type and descriptor count). -/
structure DescriptorPoolSize where
  ty : DescriptorType
  descriptorCount : Nat
deriving DecidableEq

/-- Mirrors `vk::DescriptorSetLayoutBinding`; `default()` zero-initialises
every field, and the builder methods used by `Device::new` overwrite only
`descriptor_type` and `binding`. -/
structure DescriptorSetLayoutBinding where
  binding : Nat
  descriptorType : DescriptorType
  descriptorCount : Nat
  stageFlags : Nat
deriving DecidableEq

/-- `vk::DescriptorSetLayoutBinding::default()`: all fields zero (the zero
`vk::DescriptorType` is `SAMPLER`). -/
def DescriptorSetLayoutBinding.zeroed : DescriptorSetLayoutBinding :=
  { binding := 0, descriptorType := DescriptorType.SAMPLER, descriptorCount := 0, stageFlags := 0 }

/-- Bit value of `vk::DescriptorBindingFlags::UPDATE_AFTER_BIND`. -/
def UPDATE_AFTER_BIND : Nat := 1

/-- Bit value of `vk::DescriptorBindingFlags::PARTIALLY_BOUND`. -/
def PARTIALLY_BOUND : Nat := 4

/-- Mirrors `let fixed_descriptor_count = 1024_u32`. -/
def fixed_descriptor_count : Nat := 1024

/-- Mirrors `descriptor_set_layout_infos`: the five `Descriptor` variants in
creation order — Samplers, Images, StorageImages, StorageBuffer,
BufferDeviceaddress — reduced (as the match in the source does) to their
`(vk::DescriptorType, u32)` payloads. -/
def descriptor_set_layout_infos : List (DescriptorType × Nat) :=
  [(DescriptorType.SAMPLER, fixed_descriptor_count),
   (DescriptorType.SAMPLED_IMAGE, fixed_descriptor_count),
   (DescriptorType.STORAGE_IMAGE, fixed_descriptor_count),
   (DescriptorType.STORAGE_BUFFER, fixed_descriptor_count),
   (DescriptorType.STORAGE_BUFFER, 1)]

/-- Mirrors the `descriptor_pool_sizes` built by the enumerate/for_each
loop: `DescriptorPoolSize::default().ty(t).descriptor_count(n)`. -/
def descriptor_pool_sizes : List DescriptorPoolSize :=
  descriptor_set_layout_infos.map fun p => { ty := p.1, descriptorCount := p.2 }

/-- Mirrors the `descriptor_bindings` built by the same loop:
`DescriptorSetLayoutBinding::default().descriptor_type(t).binding(i)` —
note that the builder chain never calls `.descriptor_count(..)`, so the
binding keeps the zeroed default count. -/
def descriptor_bindings : List DescriptorSetLayoutBinding :=
  descriptor_set_layout_infos.enum.map fun bp =>
    { DescriptorSetLayoutBinding.zeroed with binding := bp.1, descriptorType := bp.2.1 }

/-- Mirrors the `descriptor_binding_flags` built by the same loop: each
binding gets `UPDATE_AFTER_BIND | PARTIALLY_BOUND`. -/
def descriptor_binding_flags : List Nat :=
  descriptor_set_layout_infos.map fun _ => UPDATE_AFTER_BIND ||| PARTIALLY_BOUND

/-- Mirrors `DescriptorPoolCreateInfo::default()...max_sets(1)`. -/
def bindless_max_sets : Nat := 1

/-- Mirrors `let descriptor_layouts = [result.descriptor_set_layout.0]`: the
single allocation request passes exactly one set layout. -/
def bindless_set_layout_count : Nat := 1

/-! ## Swapchain acquire / present (Device::acquire_next_image, Device::present) -/

/-- Mirrors `Device::acquire_next_image` as a function of the result of the
underlying `swapchain_loader.acquire_next_image` driver call (a
`(u32, bool)` pair of image index and suboptimal flag; a driver error
aborts via `.expect` and is not modelled).  The source destructures the
pair as `(image_id, _suboptimal)` and returns `Ok(image_id)` only. -/
def device_acquire_next_image (driver_result : Nat × Bool) : Nat :=
  let image_id := driver_result.1
  image_id

/-- Mirrors `Device::present` as a function of the result of the underlying
`swapchain_loader.queue_present` driver call (`Ok(suboptimal)` or a
`vk::Result` error code): the call's result is returned unchanged, so the
suboptimal flag reaches the caller. -/
def device_present (driver_result : Except Nat Bool) : Except Nat Bool :=
  driver_result

/-! ## Pool lemmas -/

lemma page_count_le_shift_iff (n : Nat) :
    PAGE_COUNT ≤ n >>> PAGE_BITS ↔ MAX_RESOURCE_COUNT ≤ n := by
  have h : n >>> PAGE_BITS = n / 512 := by
    simp [PAGE_BITS, Nat.shiftRight_eq_div_pow]
  rw [h]
  norm_num [PAGE_COUNT, MAX_RESOURCE_COUNT, PAGE_SIZE, PAGE_BITS]
  omega

lemma createAt_of_page_fail {R : Type} (p : ResourcePool R) (idx : Nat) (v : R)
    (h : PAGE_COUNT ≤ idx >>> PAGE_BITS) : p.createAt idx v = (none, p) := by
  simp [ResourcePool.createAt, h]

/-- The written slot of a successful `createAt`: the new content of the
page `idx >>> PAGE_BITS` as a function of the old pool. -/
def writtenPage {R : Type} (p : ResourcePool R) (idx : Nat) (v : R) : Page R :=
  fun o =>
    if o = idx &&& PAGE_MASK then some v
    else pageOrUninit (p.pages (idx >>> PAGE_BITS)) o

/-- The page table of a successful `createAt`. -/
def writtenPages {R : Type} (p : ResourcePool R) (idx : Nat) (v : R) :
    Nat → Option (Page R) :=
  fun i => if i = idx >>> PAGE_BITS then some (writtenPage p idx v) else p.pages i

lemma createAt_of_page_ok {R : Type} (p : ResourcePool R) (idx : Nat) (v : R)
    (h : ¬ PAGE_COUNT ≤ idx >>> PAGE_BITS) :
    p.createAt idx v = (some (v, idx), { p with pages := writtenPages p idx v }) := by
  simp only [ResourcePool.createAt, if_neg h]
  rfl

lemma create_of_empty_full {R : Type} (p : ResourcePool R) (v : Unit → R)
    (he : p.free_indices = [])
    (hf : MAX_RESOURCE_COUNT ≤ (p.latest_index + 1) % 2 ^ 32) :
    p.create v = (none, { p with latest_index := (p.latest_index + 1) % 2 ^ 32 }) := by
  simp only [ResourcePool.create, he, List.isEmpty_nil, if_true]
  split
  · rfl
  · rename_i hc
    exact absurd hf hc

lemma create_of_empty_ok {R : Type} (p : ResourcePool R) (v : Unit → R)
    (he : p.free_indices = [])
    (hf : ¬ MAX_RESOURCE_COUNT ≤ (p.latest_index + 1) % 2 ^ 32) :
    p.create v =
      ResourcePool.createAt { p with latest_index := (p.latest_index + 1) % 2 ^ 32 }
        ((p.latest_index + 1) % 2 ^ 32) (v ()) := by
  simp only [ResourcePool.create, he, List.isEmpty_nil, if_true]
  split
  · rename_i hc
    exact absurd hc hf
  · rfl

lemma create_of_nonempty {R : Type} (p : ResourcePool R) (v : Unit → R)
    (he : p.free_indices ≠ []) :
    p.create v =
      ResourcePool.createAt { p with free_indices := p.free_indices.dropLast }
        (p.free_indices.getLast?.getD 0) (v ()) := by
  cases hfi : p.free_indices with
  | nil => exact absurd hfi he
  | cons a l => simp [ResourcePool.create, hfi]

lemma createN_spec {R : Type} (v : Unit → R) :
    ∀ n, n ≤ MAX_RESOURCE_COUNT - 1 →
      (createN v n).latest_index = n ∧ (createN v n).free_indices = [] := by
  intro n
  induction n with
  | zero => intro _; exact ⟨rfl, rfl⟩
  | succ k ih =>
    intro hk
    obtain ⟨hl, hf⟩ := ih (by omega)
    have hk' : k + 1 ≤ MAX_RESOURCE_COUNT - 1 := hk
    have h32 : ((createN v k).latest_index + 1) % 2 ^ 32 = k + 1 := by
      rw [hl]
      exact Nat.mod_eq_of_lt (by norm_num [MAX_RESOURCE_COUNT] at hk'; omega)
    have hnf : ¬ MAX_RESOURCE_COUNT ≤ ((createN v k).latest_index + 1) % 2 ^ 32 := by
      rw [h32]; norm_num [MAX_RESOURCE_COUNT] at hk' ⊢; omega
    have hpc : ¬ PAGE_COUNT ≤ (k + 1) >>> PAGE_BITS := by
      rw [page_count_le_shift_iff]
      norm_num [MAX_RESOURCE_COUNT] at hk' ⊢; omega
    show (((createN v k).create v).2.latest_index = k + 1
      ∧ ((createN v k).create v).2.free_indices = [])
    rw [create_of_empty_ok _ _ hf hnf, h32, createAt_of_page_ok _ _ _ hpc]
    exact ⟨rfl, hf⟩

lemma createN_result {R : Type} (v : Unit → R) (k : Nat)
    (hk : k + 1 ≤ MAX_RESOURCE_COUNT - 1) :
    ((createN v k).create v).1 = some (v (), k + 1) := by
  obtain ⟨hl, hf⟩ := createN_spec v k (by omega)
  have h32 : ((createN v k).latest_index + 1) % 2 ^ 32 = k + 1 := by
    rw [hl]
    exact Nat.mod_eq_of_lt (by norm_num [MAX_RESOURCE_COUNT] at hk; omega)
  have hnf : ¬ MAX_RESOURCE_COUNT ≤ ((createN v k).latest_index + 1) % 2 ^ 32 := by
    rw [h32]; norm_num [MAX_RESOURCE_COUNT] at hk ⊢; omega
  have hpc : ¬ PAGE_COUNT ≤ (k + 1) >>> PAGE_BITS := by
    rw [page_count_le_shift_iff]
    norm_num [MAX_RESOURCE_COUNT] at hk ⊢; omega
  rw [create_of_empty_ok _ _ hf hnf, h32, createAt_of_page_ok _ _ _ hpc]

lemma createN_fail {R : Type} (v : Unit → R) :
    ((createN v (MAX_RESOURCE_COUNT - 1)).create v).1 = none := by
  obtain ⟨hl, hf⟩ := createN_spec v (MAX_RESOURCE_COUNT - 1) le_rfl
  have hfull : MAX_RESOURCE_COUNT ≤ ((createN v (MAX_RESOURCE_COUNT - 1)).latest_index + 1) % 2 ^ 32 := by
    rw [hl]; norm_num [MAX_RESOURCE_COUNT]
  rw [create_of_empty_full _ _ hf hfull]

lemma chosenIndex_of_empty {R : Type} (p : ResourcePool R) (he : p.free_indices = []) :
    p.chosenIndex = (p.latest_index + 1) % 2 ^ 32 := by
  simp [ResourcePool.chosenIndex, he]

lemma chosenIndex_of_nonempty {R : Type} (p : ResourcePool R) (he : p.free_indices ≠ []) :
    p.chosenIndex = p.free_indices.getLast?.getD 0 := by
  cases hfi : p.free_indices with
  | nil => exact absurd hfi he
  | cons a l => simp [ResourcePool.chosenIndex, hfi]

lemma create_cases {R : Type} (p : ResourcePool R) (v : Unit → R) :
    ((p.create v).1 = none ∧ (p.create v).2.pages = p.pages)
    ∨ ((p.create v).1 = some (v (), p.chosenIndex)
        ∧ ¬ PAGE_COUNT ≤ p.chosenIndex >>> PAGE_BITS
        ∧ (p.create v).2.pages = writtenPages p p.chosenIndex (v ())) := by
  by_cases he : p.free_indices = []
  · rw [chosenIndex_of_empty p he]
    by_cases hf : MAX_RESOURCE_COUNT ≤ (p.latest_index + 1) % 2 ^ 32
    · rw [create_of_empty_full p v he hf]
      exact Or.inl ⟨rfl, rfl⟩
    · rw [create_of_empty_ok p v he hf]
      by_cases hpc : PAGE_COUNT ≤ ((p.latest_index + 1) % 2 ^ 32) >>> PAGE_BITS
      · rw [createAt_of_page_fail _ _ _ hpc]
        exact Or.inl ⟨rfl, rfl⟩
      · rw [createAt_of_page_ok _ _ _ hpc]
        exact Or.inr ⟨rfl, hpc, rfl⟩
  · rw [chosenIndex_of_nonempty p he]
    rw [create_of_nonempty p v he]
    by_cases hpc : PAGE_COUNT ≤ (p.free_indices.getLast?.getD 0) >>> PAGE_BITS
    · rw [createAt_of_page_fail _ _ _ hpc]
      exact Or.inl ⟨rfl, rfl⟩
    · rw [createAt_of_page_ok _ _ _ hpc]
      exact Or.inr ⟨rfl, hpc, rfl⟩

/-! ## Claim C3 -/

/-- Claim C3 counterexample: on a fresh pool the allocation number `2 ^ 19`
fails even though only `2 ^ 19 - 1` allocations succeeded before it (the
allocation number `2 ^ 19 - 1` still succeeds), so a fresh pool does not
admit `2 ^ 19` successful allocations before the first failure. -/
theorem fresh_pool_fails_at_allocation_2_pow_19 :
    ((createN v0 (MAX_RESOURCE_COUNT - 1)).create v0).1 = none
    ∧ ((createN v0 (MAX_RESOURCE_COUNT - 2)).create v0).1 ≠ none := by
  constructor
  · exact createN_fail v0
  · rw [createN_result v0 _ (by norm_num [MAX_RESOURCE_COUNT])]
    simp

/-- Claim C3 (amended): for every pool state (with the `u32` high-water mark
below its wrap-around), `ResourcePool::create` fails exactly when the free
list is empty and the incremented high-water mark reaches the fixed
capacity `2 ^ 19`, or when the chosen index's page is at or beyond the
1024-entry page table; a fresh pool admits exactly `2 ^ 19 - 1` (not
`2 ^ 19`) successful allocations before the first failure, index 0 being
reserved as the null handle and never allocated; and a failed allocation
never writes into or materializes any page. -/
theorem create_exhaustion_characterization :
    (∀ (p : ResourcePool Nat) (v : Unit → Nat), p.latest_index + 1 < 2 ^ 32 →
      ((p.create v).1 = none ↔
        (p.free_indices = [] ∧ MAX_RESOURCE_COUNT ≤ p.latest_index + 1)
        ∨ PAGE_COUNT ≤ p.chosenIndex >>> PAGE_BITS))
    ∧ (∀ (k : Nat), k + 1 < MAX_RESOURCE_COUNT → ((createN v0 k).create v0).1 ≠ none)
    ∧ ((createN v0 (MAX_RESOURCE_COUNT - 1)).create v0).1 = none
    ∧ (∀ (p : ResourcePool Nat) (v : Unit → Nat), (p.create v).1 = none →
        (p.create v).2.pages = p.pages) := by
  refine ⟨?_, ?_, createN_fail v0, ?_⟩
  · intro p v h32
    have hmod : (p.latest_index + 1) % 2 ^ 32 = p.latest_index + 1 := Nat.mod_eq_of_lt h32
    by_cases he : p.free_indices = []
    · have hch : p.chosenIndex = p.latest_index + 1 := by
        rw [chosenIndex_of_empty p he, hmod]
      by_cases hf : MAX_RESOURCE_COUNT ≤ p.latest_index + 1
      · rw [create_of_empty_full p v he (by rw [hmod]; exact hf)]
        exact iff_of_true rfl (Or.inl ⟨he, hf⟩)
      · have hpc : ¬ PAGE_COUNT ≤ p.chosenIndex >>> PAGE_BITS := by
          rw [hch, page_count_le_shift_iff]
          exact hf
        rw [create_of_empty_ok p v he (by rw [hmod]; exact hf), hmod,
          createAt_of_page_ok _ _ _ (by rw [← hch]; exact hpc)]
        refine iff_of_false (by simp) ?_
        rintro (⟨_, hf'⟩ | hpc')
        · exact hf hf'
        · exact hpc hpc'
    · have hch : p.chosenIndex = p.free_indices.getLast?.getD 0 :=
        chosenIndex_of_nonempty p he
      rw [create_of_nonempty p v he]
      by_cases hpc : PAGE_COUNT ≤ (p.free_indices.getLast?.getD 0) >>> PAGE_BITS
      · rw [createAt_of_page_fail _ _ _ hpc]
        exact iff_of_true rfl (Or.inr (by rw [hch]; exact hpc))
      · rw [createAt_of_page_ok _ _ _ hpc]
        refine iff_of_false (by simp) ?_
        rintro (⟨he', _⟩ | hpc')
        · exact he he'
        · rw [hch] at hpc'
          exact hpc hpc'
  · intro k hk
    rw [createN_result v0 k (by omega)]
    simp
  · intro p v hfail
    rcases create_cases p v with ⟨_, hpages⟩ | ⟨hsome, _, _⟩
    · exact hpages
    · rw [hfail] at hsome
      exact absurd hsome (by simp)

/-- A pool whose high-water mark sits one below the capacity: the next
allocation from the empty free list must fail. -/
def poolAtCapacity : ResourcePool Nat :=
  { pages := fun _ => none, free_indices := [], latest_index := MAX_RESOURCE_COUNT - 1 }

theorem create_exhaustion_characterization_witness :
    (poolAtCapacity.create v0).1 = none :=
  (create_exhaustion_characterization.1 poolAtCapacity v0
      (by norm_num [poolAtCapacity, MAX_RESOURCE_COUNT])).mpr
    (Or.inl ⟨rfl, by norm_num [poolAtCapacity, MAX_RESOURCE_COUNT]⟩)

/-! ## Claim C6 -/

/-- Claim C6: whenever the free list is non-empty, `create` allocates the
most recently pushed index — the last element of the free-list vector,
which it pops — and leaves the high-water mark unchanged; the high-water
mark moves only when the free list is empty. -/
theorem create_prefers_free_list_lifo :
    (∀ (p : ResourcePool Nat) (v : Unit → Nat), p.free_indices ≠ [] →
      ((p.create v).2.latest_index = p.latest_index
       ∧ (p.create v).2.free_indices = p.free_indices.dropLast
       ∧ ∀ r i, (p.create v).1 = some (r, i) → p.free_indices.getLast? = some i))
    ∧ (∀ (p : ResourcePool Nat) (v : Unit → Nat),
        (p.create v).2.latest_index ≠ p.latest_index → p.free_indices = []) := by
  have hmain : ∀ (p : ResourcePool Nat) (v : Unit → Nat), p.free_indices ≠ [] →
      ((p.create v).2.latest_index = p.latest_index
       ∧ (p.create v).2.free_indices = p.free_indices.dropLast
       ∧ ∀ r i, (p.create v).1 = some (r, i) → p.free_indices.getLast? = some i) := by
    intro p v he
    obtain ⟨x, hx⟩ : ∃ x, p.free_indices.getLast? = some x := by
      cases hfi : p.free_indices with
      | nil => exact absurd hfi he
      | cons a l => exact ⟨(a :: l).getLast (by simp), List.getLast?_eq_getLast _ _⟩
    rw [create_of_nonempty p v he]
    by_cases hpc : PAGE_COUNT ≤ (p.free_indices.getLast?.getD 0) >>> PAGE_BITS
    · rw [createAt_of_page_fail _ _ _ hpc]
      exact ⟨rfl, rfl, fun r i hri => absurd hri (by simp)⟩
    · rw [createAt_of_page_ok _ _ _ hpc]
      refine ⟨rfl, rfl, fun r i hri => ?_⟩
      have : p.free_indices.getLast?.getD 0 = i := by
        have := hri
        simp only [Option.some.injEq, Prod.mk.injEq] at this
        exact this.2
      rw [hx] at this ⊢
      simp only [Option.getD_some] at this
      rw [this]
  refine ⟨hmain, fun p v hne => ?_⟩
  by_cases he : p.free_indices = []
  · exact he
  · exact absurd (hmain p v he).1 hne

/-- A pool with free list `[7, 3]` (3 pushed most recently). -/
def poolLifo : ResourcePool Nat :=
  { pages := fun _ => none, free_indices := [7, 3], latest_index := 10 }

theorem create_prefers_free_list_lifo_witness :
    (poolLifo.create v0).2.latest_index = poolLifo.latest_index
    ∧ (poolLifo.create v0).2.free_indices = poolLifo.free_indices.dropLast
    ∧ poolLifo.free_indices.getLast? = some 3 := by
  obtain ⟨h1, h2, h3⟩ := create_prefers_free_list_lifo.1 poolLifo v0 (by decide)
  exact ⟨h1, h2, h3 0 3 (by rfl)⟩

/-! ## Claim C7 -/

/-- Claim C7: along any run of `create` calls on a fresh pool (no frees) in
which every call succeeds, the returned slot indices are pairwise distinct
and none of them is the reserved null value 0. -/
theorem fresh_pool_indices_distinct_nonzero :
    ∀ (n : Nat), (∀ k, k < n → ((createN v0 k).create v0).1 ≠ none) →
      ∀ j k rj ij rk ik, j < n → k < n →
        ((createN v0 j).create v0).1 = some (rj, ij) →
        ((createN v0 k).create v0).1 = some (rk, ik) →
        ij ≠ 0 ∧ (j ≠ k → ij ≠ ik) := by
  intro n hall j k rj ij rk ik hj hk hjr hkr
  have hn : n ≤ MAX_RESOURCE_COUNT - 1 := by
    by_contra hlt
    push_neg at hlt
    exact hall (MAX_RESOURCE_COUNT - 1) (by omega) (createN_fail v0)
  have hjv := createN_result v0 j (by omega)
  have hkv := createN_result v0 k (by omega)
  rw [hjv] at hjr
  rw [hkv] at hkr
  simp only [Option.some.injEq, Prod.mk.injEq] at hjr hkr
  obtain ⟨-, hij⟩ := hjr
  obtain ⟨-, hik⟩ := hkr
  subst hij
  subst hik
  exact ⟨by omega, fun hne => by omega⟩

theorem fresh_pool_indices_distinct_nonzero_witness :
    (1 : Nat) ≠ 0 ∧ ((0 : Nat) ≠ 1 → (1 : Nat) ≠ 2) :=
  fresh_pool_indices_distinct_nonzero 2 (by decide) 0 1 0 1 0 2
    (by decide) (by decide) (by rfl) (by rfl)

/-! ## Claim C9 -/

/-- Claim C9: a successful `create` returning index `i` writes only the slot
at `i` — the page containing `i` is (possibly) materialized, its slot at
`i`'s offset holds the new record, every other slot of that page keeps its
previous content (uninitialised if the page was fresh), and every other
page is untouched; moreover no `create` call ever returns a materialized
page to the unmaterialized state. -/
theorem create_touches_only_target_slot :
    (∀ (p : ResourcePool Nat) (v : Unit → Nat) (r i : Nat),
      (p.create v).1 = some (r, i) →
        ((∀ j, j ≠ i >>> PAGE_BITS → (p.create v).2.pages j = p.pages j)
         ∧ ∃ pg, (p.create v).2.pages (i >>> PAGE_BITS) = some pg
             ∧ pg (i &&& PAGE_MASK) = some r
             ∧ ∀ o, o ≠ i &&& PAGE_MASK → pg o = pageOrUninit (p.pages (i >>> PAGE_BITS)) o))
    ∧ (∀ (p : ResourcePool Nat) (v : Unit → Nat) (j : Nat),
        (p.create v).2.pages j = none → p.pages j = none) := by
  constructor
  · intro p v r i hri
    rcases create_cases p v with ⟨hnone, _⟩ | ⟨hsome, hpc, hpages⟩
    · rw [hri] at hnone
      exact absurd hnone (by simp)
    · rw [hri] at hsome
      simp only [Option.some.injEq, Prod.mk.injEq] at hsome
      obtain ⟨hr, hi⟩ := hsome
      subst hr
      rw [← hi] at hpages
      constructor
      · intro j hj
        rw [hpages]
        simp only [writtenPages]
        rw [if_neg hj]
      · refine ⟨writtenPage p i (v ()), ?_, ?_, ?_⟩
        · rw [hpages]
          simp [writtenPages]
        · simp [writtenPage]
        · intro o ho
          simp only [writtenPage]
          rw [if_neg ho]
  · intro p v j hj
    rcases create_cases p v with ⟨_, hpages⟩ | ⟨_, _, hpages⟩
    · rw [hpages] at hj
      exact hj
    · rw [hpages] at hj
      simp only [writtenPages] at hj
      by_cases hji : j = p.chosenIndex >>> PAGE_BITS
      · rw [if_pos hji] at hj
        exact absurd hj (by simp)
      · rw [if_neg hji] at hj
        exact hj

/-- A pool with page 0 materialized by a first allocation, used to
instantiate the page-effects theorem at a concrete input. -/
def poolOne : ResourcePool Nat := ((ResourcePool.new Nat).create v0).2

theorem create_touches_only_target_slot_witness :
    (poolOne.create v0).2.pages 5 = poolOne.pages 5
    ∧ ∃ pg, (poolOne.create v0).2.pages (2 >>> PAGE_BITS) = some pg
        ∧ pg (2 &&& PAGE_MASK) = some 0 := by
  obtain ⟨hother, pg, hpg, hslot, -⟩ :=
    create_touches_only_target_slot.1 poolOne v0 0 2 (by rfl)
  exact ⟨hother 5 (by decide), pg, hpg, hslot⟩

/-! ## Queue selection lemmas -/

lemma get_first_spec (desired : Nat) :
    ∀ (props : List (Nat × Nat)),
      get_first_queue_index props desired =
        (props.find? (fun q => q.2 &&& desired == desired)).map (fun q => q.1) := by
  intro props
  induction props with
  | nil => rfl
  | cons a rest ih =>
    obtain ⟨i, flags⟩ := a
    by_cases h : flags &&& desired = desired
    · rw [List.find?_cons_of_pos _ (by simpa using h)]
      simp [get_first_queue_index, if_pos h]
    · rw [List.find?_cons_of_neg _ (by simpa using h)]
      simp only [get_first_queue_index, if_neg h]
      exact ih

lemma getLast?_cons_ne_none {A : Type} (b : A) (l : List A) :
    (b :: l).getLast? ≠ none := by
  induction l generalizing b with
  | nil => simp
  | cons c m ih =>
    rw [List.getLast?_cons_cons]
    exact ih c

lemma get_separate_go_spec (desired undesired : Nat) :
    ∀ (props : List (Nat × Nat)) (acc : Option Nat),
      get_separate_queue_go props desired undesired acc =
        match props.find? (isDedicated desired undesired) with
        | some q => some q.1
        | none =>
          match (props.filter (isCandidate desired)).getLast? with
          | some q => some q.1
          | none => acc := by
  intro props
  induction props with
  | nil => intro acc; rfl
  | cons a rest ih =>
    intro acc
    obtain ⟨i, flags⟩ := a
    by_cases hc : flags &&& desired = desired ∧ flags &&& GRAPHICS_BIT = 0
    · by_cases hu : flags &&& undesired = 0
      · have hded : isDedicated desired undesired (i, flags) = true := by
          simp [isDedicated, isCandidate, hc.1, hc.2, hu]
        rw [List.find?_cons_of_pos _ hded]
        simp only [get_separate_queue_go, if_pos hc, if_pos hu]
      · have hded : ¬ isDedicated desired undesired (i, flags) = true := by
          simp [isDedicated, isCandidate, hc.1, hc.2, hu]
        have hcand : isCandidate desired (i, flags) = true := by
          simp [isCandidate, hc.1, hc.2]
        rw [List.find?_cons_of_neg _ (by simpa using hded),
          List.filter_cons_of_pos hcand]
        simp only [get_separate_queue_go, if_pos hc, if_neg hu]
        rw [ih (some i)]
        cases hfd : rest.find? (isDedicated desired undesired) with
        | some q => rfl
        | none =>
          cases hfl : rest.filter (isCandidate desired) with
          | nil => rfl
          | cons b l =>
            simp only [List.getLast?_cons_cons]
            cases hgl : (b :: l).getLast? with
            | some q => rfl
            | none => exact absurd hgl (getLast?_cons_ne_none b l)
    · have hcand : isCandidate desired (i, flags) = false := by
        simpa [isCandidate] using hc
      have hded : isDedicated desired undesired (i, flags) = false := by
        simp [isDedicated, hcand]
      rw [List.find?_cons_of_neg _ (by simp [hded]),
        List.filter_cons_of_neg (by simp [hcand])]
      simp only [get_separate_queue_go, if_neg hc]
      exact ih acc

lemma get_separate_spec (desired undesired : Nat) (props : List (Nat × Nat)) :
    get_separate_queue_index props desired undesired =
      match props.find? (isDedicated desired undesired) with
      | some q => some q.1
      | none => ((props.filter (isCandidate desired)).getLast?).map (fun q => q.1) := by
  rw [get_separate_queue_index, get_separate_go_spec]
  cases props.find? (isDedicated desired undesired) with
  | some q => rfl
  | none =>
    cases (props.filter (isCandidate desired)).getLast? with
    | some q => rfl
    | none => rfl

/-! ## Claim C4 -/

/-- The queue family table of the selection scenario: family 0 has
Graphics, Compute and Transfer, family 1 only Compute, family 2 only
Transfer. -/
def scenarioFamilies : List (Nat × Nat) :=
  [(0, GRAPHICS_BIT ||| COMPUTE_BIT ||| TRANSFER_BIT), (1, COMPUTE_BIT), (2, TRANSFER_BIT)]

/-- Claim C4: the Graphics selector returns the first family exposing
Graphics; the separate selector (used for Compute with Transfer undesired,
and Transfer with Compute undesired) returns the first family exposing the
desired capability without Graphics and without the undesired capability,
falling back to the last family exposing the desired capability without
Graphics; on the scenario table it picks family 0 for Graphics, family 1
for Compute and family 2 for Transfer (the `queue_type_indices` array is
laid out `[graphics, transfer, compute]` since `CommandType::Transfer = 1`
and `CommandType::Compute = 2`). -/
theorem queue_family_selection :
    (∀ (props : List (Nat × Nat)) (desired : Nat),
      get_first_queue_index props desired =
        (props.find? (fun q => q.2 &&& desired == desired)).map (fun q => q.1))
    ∧ (∀ (props : List (Nat × Nat)) (desired undesired : Nat),
      get_separate_queue_index props desired undesired =
        match props.find? (isDedicated desired undesired) with
        | some q => some q.1
        | none => ((props.filter (isCandidate desired)).getLast?).map (fun q => q.1))
    ∧ get_first_queue_index scenarioFamilies GRAPHICS_BIT = some 0
    ∧ get_separate_queue_index scenarioFamilies COMPUTE_BIT TRANSFER_BIT = some 1
    ∧ get_separate_queue_index scenarioFamilies TRANSFER_BIT COMPUTE_BIT = some 2
    ∧ select_queue_type_indices scenarioFamilies = some ![0, 2, 1] := by
  refine ⟨fun props desired => get_first_spec desired props,
    fun props desired undesired => get_separate_spec desired undesired props,
    rfl, rfl, rfl, rfl⟩

/-! ## Claim C5 -/

/-- Timeline semaphores of the three queues, all freshly created with
counter 0. -/
def semas0 : Fin 3 → Semaphore := fun _ => { counter := 0, handle := 0 }

/-- The device built on the C4 scenario's family selection
`queue_type_indices = [graphics = 0, transfer = 2, compute = 1]`. -/
def devMismatch : Device :=
  Device.new_model ![0, 2, 1] { counter := 0, handle := 0 } semas0 3

/-- Claim C5 is violated by the code: with `queue_type_indices = [0, 2, 1]`
(graphics family 0, transfer family 2, compute family 1), the queue
returned by `queue_at(Transfer)` stores `family_index = 2` but its native
handle was obtained from family 1 — the compute family — and symmetrically
`queue_at(Compute)` stores `family_index = 1` with a handle from family 2,
because `native_queues` is built in the order Graphics, Compute, Transfer
while the `CommandType` discriminants order the array Graphics, Transfer,
Compute.  Only the Graphics queue is internally consistent. -/
theorem queue_at_handle_family_mismatch :
    (devMismatch.queue_at CommandType.Transfer).family_index = 2
    ∧ (devMismatch.queue_at CommandType.Transfer).handle.family_index = 1
    ∧ (devMismatch.queue_at CommandType.Compute).family_index = 1
    ∧ (devMismatch.queue_at CommandType.Compute).handle.family_index = 2
    ∧ (devMismatch.queue_at CommandType.Graphics).family_index = 0
    ∧ (devMismatch.queue_at CommandType.Graphics).handle.family_index = 0 :=
  ⟨rfl, rfl, rfl, rfl, rfl, rfl⟩

/-! ## Claim C1 -/

/-- The device of the frame-pacing scenario: counter 5 after five
`end_frame` calls, three frames in flight. -/
def dev53 : Device := mkSimpleDevice 5 3

/-- A device whose frame counter sits at `2 ^ 63`, where the `u64 as i64`
cast in `new_frame` goes negative. -/
def devCast : Device := mkSimpleDevice (2 ^ 63) 1

/-- Claim C1 counterexample: with the global frame counter at `2 ^ 63` (a
valid `u64` value) and frame_in_flight_count 1, `new_frame` waits on 0 —
the `counter as i64` cast yields `-2 ^ 63`, so `max(0, ...)` collapses —
whereas the claimed formula `max(0, counter - (count - 1))` gives
`2 ^ 63`. -/
theorem new_frame_wait_cast_counterexample :
    (devCast.new_frame).1 = 0
    ∧ devCast.frame_sema.counter - (devCast.frame_count - 1) = 2 ^ 63
    ∧ (0 : Nat) ≠ 2 ^ 63 := by
  refine ⟨?_, by norm_num [devCast, mkSimpleDevice, Device.new_model], by norm_num⟩
  norm_num [Device.new_frame, devCast, mkSimpleDevice, Device.new_model, u64ToI64]

/-- Claim C1 (amended): for every device with frame_in_flight_count at
least 1 and every global frame counter value below `2 ^ 63` (the
i64-representable range — for larger counters the `u64 as i64` cast makes
the code wait on a different value), `new_frame` waits on the global
timeline for exactly `max(0, counter - (frame_in_flight_count - 1))`
(natural-number truncated subtraction) and returns the frame slot
`counter % frame_in_flight_count` (the slot formula needs no counter
bound); in particular with frame_in_flight_count 3 and the counter at 5 it
waits on 3, returns slot 2, and does not block once the GPU has signalled
the five completed frames. -/
theorem new_frame_wait_and_slot :
    (∀ d : Device, 1 ≤ d.frame_count → d.frame_sema.counter < 2 ^ 63 →
      (d.new_frame).1 = d.frame_sema.counter - (d.frame_count - 1)
      ∧ (d.new_frame).2 = d.frame_sema.counter % d.frame_count)
    ∧ dev53.new_frame = (3, 2)
    ∧ ¬ dev53.new_frame_blocks 5 := by
  refine ⟨?_, by decide, ?_⟩
  · intro d h1 hc
    refine ⟨?_, rfl⟩
    simp only [Device.new_frame, u64ToI64, if_pos hc]
    omega
  · show ¬ (5 < (dev53.new_frame).1)
    decide

theorem new_frame_wait_and_slot_witness :
    (dev53.new_frame).1 = dev53.frame_sema.counter - (dev53.frame_count - 1)
    ∧ (dev53.new_frame).2 = dev53.frame_sema.counter % dev53.frame_count :=
  new_frame_wait_and_slot.1 dev53 (by norm_num [dev53, mkSimpleDevice, Device.new_model])
    (by norm_num [dev53, mkSimpleDevice, Device.new_model])

/-! ## Claim C8 -/

/-- Claim C8: `end_frame` only advances the global frame timeline counter
by exactly one (below the `u64` wrap-around); the semaphore's native
handle, the queues with their per-queue counters, the frame-in-flight
count, the bindless descriptor state and the stored queue family selection
are all unchanged. -/
theorem end_frame_advances_only_frame_counter :
    ∀ d : Device, d.frame_sema.counter + 1 < 2 ^ 64 →
      (d.end_frame.frame_sema.counter = d.frame_sema.counter + 1
       ∧ d.end_frame.frame_sema.handle = d.frame_sema.handle
       ∧ d.end_frame.queues = d.queues
       ∧ (∀ t : CommandType, d.end_frame.queue_at t = d.queue_at t)
       ∧ d.end_frame.frame_count = d.frame_count
       ∧ d.end_frame.descriptor_pool = d.descriptor_pool
       ∧ d.end_frame.descriptor_set_layout = d.descriptor_set_layout
       ∧ d.end_frame.descriptor_set = d.descriptor_set
       ∧ d.end_frame.queue_type_indices = d.queue_type_indices) := by
  intro d h
  refine ⟨?_, rfl, rfl, fun t => rfl, rfl, rfl, rfl, rfl, rfl⟩
  show (d.frame_sema.counter + 1) % 2 ^ 64 = d.frame_sema.counter + 1
  exact Nat.mod_eq_of_lt h

theorem end_frame_advances_only_frame_counter_witness :
    dev53.end_frame.frame_sema.counter = dev53.frame_sema.counter + 1
    ∧ dev53.end_frame.frame_count = dev53.frame_count := by
  obtain ⟨h1, -, -, -, h5, -, -, -, -⟩ :=
    end_frame_advances_only_frame_counter dev53
      (by norm_num [dev53, mkSimpleDevice, Device.new_model])
  exact ⟨h1, h5⟩

/-! ## Claim C2 -/

/-- Claim C2 as the code actually behaves: the five bindings are numbered
0..4 in creation order with the claimed descriptor types, every binding
carries the update-after-bind and partially-bound flags, the pool is
created for a single set, and the pool sizes carry the capacities
1024, 1024, 1024, 1024, 1 — but the `descriptor_count` of every
`DescriptorSetLayoutBinding` is left at the zero default (the builder
chain never sets it), so no binding declares the claimed capacity of 1024
(or 1). -/
theorem bindless_layout_binding_capacities :
    descriptor_bindings.map (fun b => (b.binding, b.descriptorType, b.descriptorCount))
      = [(0, DescriptorType.SAMPLER, 0), (1, DescriptorType.SAMPLED_IMAGE, 0),
         (2, DescriptorType.STORAGE_IMAGE, 0), (3, DescriptorType.STORAGE_BUFFER, 0),
         (4, DescriptorType.STORAGE_BUFFER, 0)]
    ∧ descriptor_pool_sizes.map (fun s => s.descriptorCount) = [1024, 1024, 1024, 1024, 1]
    ∧ descriptor_binding_flags = List.replicate 5 (UPDATE_AFTER_BIND ||| PARTIALLY_BOUND)
    ∧ (∀ f ∈ descriptor_binding_flags,
        f &&& UPDATE_AFTER_BIND ≠ 0 ∧ f &&& PARTIALLY_BOUND ≠ 0)
    ∧ bindless_max_sets = 1
    ∧ bindless_set_layout_count = 1 := by
  refine ⟨rfl, rfl, rfl, ?_, rfl, rfl⟩
  decide

/-! ## Claim C10 -/

/-- Claim C10 as the code actually behaves: `acquire_next_image` discards
the driver's suboptimal indication — its result is the bare image index,
identical whether or not the surface was reported suboptimal (the source
marks this with a TODO) — while `present` does return the driver's
`Ok(suboptimal)` value unchanged to the caller. -/
theorem acquire_discards_suboptimal_present_propagates :
    (∀ image_id : Nat,
      device_acquire_next_image (image_id, true) = device_acquire_next_image (image_id, false))
    ∧ device_acquire_next_image (7, true) = 7
    ∧ device_present (Except.ok true) = Except.ok true
    ∧ (∀ r : Except Nat Bool, device_present r = r) :=
  ⟨fun _ => rfl, rfl, rfl, fun _ => rfl⟩

end LrRs
